import Mathlib

/-!
Verification of the standalone concurrent load-generation tool
(`tests/test_load.py`): percentile interpolation, worker outcome
classification, fixed-count token dispatch, configuration validation,
and result aggregation, shallowly embedded in Lean.

Python floats are modelled as rationals (`ℚ`), the float NaN sentinel as
`Option.none`, `collections.Counter` as `Multiset` (the counter maps a key
to its multiplicity), and fatal `SystemExit` configuration errors as the
`Except.error` branch of a configuration-building function.
-/

namespace LoadTest

/-- Python `int()` applied to a rational: truncation toward zero. -/
def pyInt (q : ℚ) : ℤ := if 0 ≤ q then ⌊q⌋ else ⌈q⌉

/-- `percentile(sorted_vals, p)` from the source: linear-interpolation
percentile over an (assumed sorted) list.  `float("nan")` on the empty
list is modelled as `none`; Python's `sorted_vals[-1]` is the last
element; `int(k)` is truncation toward zero (`pyInt`). -/
def percentile (sorted_vals : List ℚ) (p : ℚ) : Option ℚ :=
  if sorted_vals = [] then none
  else if p ≤ 0 then some (sorted_vals.getD 0 0)
  else if 100 ≤ p then some (sorted_vals.getD (sorted_vals.length - 1) 0)
  else
    let k : ℚ := ((sorted_vals.length : ℚ) - 1) * (p / 100)
    let f : ℤ := pyInt k
    let c : ℤ := min (f + 1) ((sorted_vals.length : ℤ) - 1)
    if c = f then some (sorted_vals.getD f.toNat 0)
    else
      some (sorted_vals.getD f.toNat 0 * ((c : ℚ) - k) +
            sorted_vals.getD c.toNat 0 * (k - (f : ℚ)))

/-- The percentile contract exactly as the specification words it: empty
input → NaN sentinel; `p <= 0` → first element; `p >= 100` → last
element; otherwise rank `k = (n-1)*p/100`, `f = floor k`,
`c = min (f+1) (n-1)`, returning `values[f]` when `c == f` and the
linear interpolation `values[f]*(c-k) + values[c]*(k-f)` otherwise. -/
def percentileSpec (values : List ℚ) (p : ℚ) : Option ℚ :=
  if values.isEmpty then none
  else if p ≤ 0 then some (values.getD 0 0)
  else if 100 ≤ p then some (values.getD (values.length - 1) 0)
  else
    let k : ℚ := ((values.length : ℚ) - 1) * p / 100
    let f : ℤ := ⌊k⌋
    let c : ℤ := min (f + 1) ((values.length : ℤ) - 1)
    if c = f then some (values.getD f.toNat 0)
    else
      some (values.getD f.toNat 0 * ((c : ℚ) - k) +
            values.getD c.toNat 0 * (k - (f : ℚ)))

/-- One request/response cycle's outcome, as classified at the Request
Executor boundary in both worker loops: a fully-read response with its
status code and measured latency, an `asyncio.TimeoutError`, an
`aiohttp.ClientError` (recorded under its exception type name), or any
other exception (likewise recorded under its type name). -/
inductive Outcome where
  | success (status : ℕ) (latency_ms : ℚ)
  | timeout
  | clientError (excName : String)
  | otherError (excName : String)
deriving DecidableEq, Repr

/-- `WorkerResult` from the source: per-worker latencies (ms, in
completion order), status-code counter, error-kind counter, and the
count `requests` of successfully completed requests. -/
structure WorkerResult where
  latencies_ms : List ℚ
  statuses : Multiset ℕ
  errors : Multiset String
  requests : ℕ
deriving DecidableEq

/-- The freshly initialised accumulators at the top of both worker
functions: empty list, two empty counters, `reqs = 0`. -/
def emptyResult : WorkerResult := ⟨[], 0, 0, 0⟩

/-- One iteration of the classification part of either worker loop
(`worker_duration` and `worker_total` share it verbatim): a success
increments the status bucket, appends the latency and bumps `reqs`; a
timeout counts under key `"timeout"`; any other exception counts under
its exception-type name.  Exactly one attempt — no retry. -/
def recordOutcome (r : WorkerResult) (o : Outcome) : WorkerResult :=
  match o with
  | .success s lat =>
      { r with statuses := s ::ₘ r.statuses,
               requests := r.requests + 1,
               latencies_ms := r.latencies_ms ++ [lat] }
  | .timeout => { r with errors := "timeout" ::ₘ r.errors }
  | .clientError n => { r with errors := n ::ₘ r.errors }
  | .otherError n => { r with errors := n ::ₘ r.errors }

/-- A whole worker run over the sequence of outcomes its request cycles
produce (the duration variant stops at the deadline, the fixed-count
variant when the queue empties; either way the result is the fold of
`recordOutcome` over the cycle outcomes, starting from the empty
accumulators). -/
def runWorker (outcomes : List Outcome) : WorkerResult :=
  outcomes.foldl recordOutcome emptyResult

/-- The status-code key an outcome contributes, if any. -/
def statusKey : Outcome → Option ℕ
  | .success s _ => some s
  | _ => none

/-- The error-kind key an outcome contributes, if any: `"timeout"` for a
timeout, the exception type name otherwise. -/
def errorKey : Outcome → Option String
  | .success _ _ => none
  | .timeout => some "timeout"
  | .clientError n => some n
  | .otherError n => some n

/-- The latency an outcome contributes, if any. -/
def latKey : Outcome → Option ℚ
  | .success _ l => some l
  | _ => none

/-- Whether the outcome is a completed (success) cycle. -/
def Outcome.isSuccess : Outcome → Bool
  | .success _ _ => true
  | _ => false

theorem foldl_record_statuses (os : List Outcome) (r : WorkerResult) :
    (os.foldl recordOutcome r).statuses =
      r.statuses + (↑(os.filterMap statusKey) : Multiset ℕ) := by
  induction os generalizing r with
  | nil => simp
  | cons o os ih =>
      cases o <;>
        simp [List.foldl_cons, ih, recordOutcome, statusKey, List.filterMap_cons,
          ← Multiset.cons_coe, Multiset.add_cons]

theorem foldl_record_errors (os : List Outcome) (r : WorkerResult) :
    (os.foldl recordOutcome r).errors =
      r.errors + (↑(os.filterMap errorKey) : Multiset String) := by
  induction os generalizing r with
  | nil => simp
  | cons o os ih =>
      cases o <;>
        simp [List.foldl_cons, ih, recordOutcome, errorKey, List.filterMap_cons,
          ← Multiset.cons_coe, Multiset.add_cons]

theorem foldl_record_latencies (os : List Outcome) (r : WorkerResult) :
    (os.foldl recordOutcome r).latencies_ms =
      r.latencies_ms ++ os.filterMap latKey := by
  induction os generalizing r with
  | nil => simp
  | cons o os ih =>
      cases o <;>
        simp [List.foldl_cons, ih, recordOutcome, latKey, List.filterMap_cons]

theorem foldl_record_requests (os : List Outcome) (r : WorkerResult) :
    (os.foldl recordOutcome r).requests =
      r.requests + os.countP (fun o => Outcome.isSuccess o) := by
  induction os generalizing r with
  | nil => simp
  | cons o os ih =>
      cases o <;>
        simp [List.foldl_cons, ih, recordOutcome, Outcome.isSuccess,
          List.countP_cons]
      all_goals omega

theorem runWorker_statuses (os : List Outcome) :
    (runWorker os).statuses = (↑(os.filterMap statusKey) : Multiset ℕ) := by
  simp [runWorker, foldl_record_statuses, emptyResult]

theorem runWorker_errors (os : List Outcome) :
    (runWorker os).errors = (↑(os.filterMap errorKey) : Multiset String) := by
  simp [runWorker, foldl_record_errors, emptyResult]

theorem runWorker_latencies (os : List Outcome) :
    (runWorker os).latencies_ms = os.filterMap latKey := by
  simp [runWorker, foldl_record_latencies, emptyResult]

theorem runWorker_requests (os : List Outcome) :
    (runWorker os).requests = os.countP (fun o => Outcome.isSuccess o) := by
  simp [runWorker, foldl_record_requests, emptyResult]

theorem pyInt_eq_floor (q : ℚ) (h : 0 ≤ q) : pyInt q = ⌊q⌋ := by
  simp [pyInt, h]

theorem percentile_eq_percentileSpec (vals : List ℚ) (p : ℚ) :
    percentile vals p = percentileSpec vals p := by
  rcases eq_or_ne vals [] with hnil | hnil
  · simp [percentile, percentileSpec, hnil]
  · have hne : vals.isEmpty = false := by
      simpa [List.isEmpty_iff] using hnil
    by_cases hp0 : p ≤ 0
    · simp [percentile, percentileSpec, hnil, hne, hp0]
    · by_cases hp100 : 100 ≤ p
      · simp [percentile, percentileSpec, hnil, hne, hp0, hp100]
      · have hlen : 1 ≤ vals.length := List.length_pos.mpr hnil
        have hl1 : (1 : ℚ) ≤ (vals.length : ℚ) := by exact_mod_cast hlen
        have hp : (0 : ℚ) < p := lt_of_not_le hp0
        have hk0 : (0 : ℚ) ≤ ((vals.length : ℚ) - 1) * (p / 100) := by
          apply mul_nonneg (by linarith)
          positivity
        have hkk : ((vals.length : ℚ) - 1) * (p / 100) =
            ((vals.length : ℚ) - 1) * p / 100 := (mul_div_assoc _ _ _).symm
        have hpy : pyInt (((vals.length : ℚ) - 1) * (p / 100)) =
            ⌊((vals.length : ℚ) - 1) * p / 100⌋ := by
          rw [pyInt_eq_floor _ hk0, hkk]
        simp only [percentile, percentileSpec, if_neg hnil, hne,
          Bool.false_eq_true, if_false, if_neg hp0, if_neg hp100]
        rw [hpy, hkk]

/-- C2: for every value list and percentile rank, `percentile` returns the
NaN sentinel on the empty list, the first element for `p <= 0`, the last
for `p >= 100`, and otherwise the value prescribed by the rank
`k = (n-1)*p/100` with `f = floor k`, `c = min (f+1) (n-1)` — `values[f]`
if `c = f`, else `values[f]*(c-k) + values[c]*(k-f)`; in particular
`percentile [1,2,3,4] 50 = 2.5`. -/
theorem percentile_meets_spec :
    (∀ (vals : List ℚ) (p : ℚ), percentile vals p = percentileSpec vals p) ∧
    percentile [1, 2, 3, 4] 50 = some (5 / 2) := by
  refine ⟨percentile_eq_percentileSpec, ?_⟩
  norm_num [percentile, pyInt, List.cons_ne_nil, show Int.toNat 2 = 2 from rfl]

/-- Concrete instance of `percentile_meets_spec`: the implementation and
the specified contract agree on the spec's own example input. -/
theorem percentile_meets_spec_witness :
    percentile [1, 2, 3, 4] 50 = percentileSpec [1, 2, 3, 4] 50 :=
  percentile_meets_spec.1 [1, 2, 3, 4] 50

/-- Where a fixed-count worker stands in its `while True` loop: at the
loop top about to call `queue.get_nowait()`; holding a dequeued token
whose request cycle has not yet been recorded; or returned after
observing `QueueEmpty`. -/
inductive Phase where
  | idle
  | inflight
  | done
deriving DecidableEq, Repr

/-- One fixed-count worker: its loop phase and its private accumulating
`WorkerResult`. -/
structure WState where
  phase : Phase
  res : WorkerResult
deriving DecidableEq

/-- The fixed-count run's shared state: the number of Work Tokens still
in the shared `asyncio.Queue`, and the worker tasks. -/
structure SysState where
  queue : ℕ
  workers : List WState
deriving DecidableEq

/-- The coordinator's setup in fixed-count mode: `q.put_nowait(1)`
executed `requests` times before any worker task runs, and `concurrency`
workers each starting at its loop top with empty accumulators. -/
def initState (requests : ℕ) (concurrency : ℕ) : SysState :=
  ⟨requests, List.replicate concurrency ⟨.idle, emptyResult⟩⟩

/-- Interleaved execution of the fixed-count workers (cooperative
scheduling: between suspension points exactly one worker runs).  A
worker at its loop top either pops a token (`get_nowait` succeeds,
atomically removing one token) or observes `QueueEmpty` and returns; a
worker holding a token finishes its request cycle with some outcome and
records it into its own result. -/
inductive Step : SysState → SysState → Prop where
  | dequeue (q : ℕ) (ws : List WState) (i : ℕ) (w : WState)
      (hw : ws[i]? = some w) (hph : w.phase = .idle) :
      Step ⟨q + 1, ws⟩ ⟨q, ws.set i ⟨.inflight, w.res⟩⟩
  | record (q : ℕ) (ws : List WState) (i : ℕ) (w : WState) (o : Outcome)
      (hw : ws[i]? = some w) (hph : w.phase = .inflight) :
      Step ⟨q, ws⟩ ⟨q, ws.set i ⟨.idle, recordOutcome w.res o⟩⟩
  | finish (ws : List WState) (i : ℕ) (w : WState)
      (hw : ws[i]? = some w) (hph : w.phase = .idle) :
      Step ⟨0, ws⟩ ⟨0, ws.set i ⟨.done, w.res⟩⟩

/-- Any interleaving of worker steps. -/
def Reaches : SysState → SysState → Prop := Relation.ReflTransGen Step

/-- Outcomes a worker has recorded: completed plus errored. -/
def doneTotal (r : WorkerResult) : ℕ := r.requests + Multiset.card r.errors

/-- Tokens accounted to one worker: one for a held (not yet recorded)
token plus one per recorded outcome. -/
def wWeight (w : WState) : ℕ :=
  (if w.phase = .inflight then 1 else 0) + doneTotal w.res

/-- Conserved quantity: tokens still queued plus tokens accounted to the
workers. -/
def sysTokens (s : SysState) : ℕ := s.queue + (s.workers.map wWeight).sum

/-- All workers have returned. -/
def AllDone (s : SysState) : Prop := ∀ w ∈ s.workers, w.phase = .done

/-- Once any worker has returned, the queue is empty (a worker only
returns on `QueueEmpty`, and tokens are never added after setup). -/
def DoneZero (s : SysState) : Prop :=
  ∀ w ∈ s.workers, w.phase = .done → s.queue = 0

theorem doneTotal_record (r : WorkerResult) (o : Outcome) :
    doneTotal (recordOutcome r o) = doneTotal r + 1 := by
  cases o <;> simp [doneTotal, recordOutcome] <;> omega

theorem sum_map_set {α : Type} (f : α → ℕ) (l : List α) (i : ℕ) (a b : α)
    (h : l[i]? = some a) :
    ((l.set i b).map f).sum + f a = (l.map f).sum + f b := by
  induction l generalizing i with
  | nil => simp at h
  | cons hd tl ih =>
      cases i with
      | zero =>
          simp only [List.getElem?_cons_zero, Option.some_inj] at h
          subst h
          simp [List.set]
          omega
      | succ j =>
          simp only [List.getElem?_cons_succ] at h
          have := ih j h
          simp only [List.set_cons_succ, List.map_cons, List.sum_cons]
          omega

theorem step_workers_length {s t : SysState} (h : Step s t) :
    t.workers.length = s.workers.length := by
  cases h <;> simp

theorem step_sysTokens {s t : SysState} (h : Step s t) :
    sysTokens t = sysTokens s := by
  cases h with
  | dequeue q ws i w hw hph =>
      have hs := sum_map_set wWeight ws i w ⟨.inflight, w.res⟩ hw
      have hww : wWeight w = doneTotal w.res := by simp [wWeight, hph]
      have hwn : wWeight ⟨.inflight, w.res⟩ = 1 + doneTotal w.res := by
        simp [wWeight, doneTotal]
      rw [hww, hwn] at hs
      simp only [sysTokens]
      omega
  | record q ws i w o hw hph =>
      have hs := sum_map_set wWeight ws i w ⟨.idle, recordOutcome w.res o⟩ hw
      have hww : wWeight w = 1 + doneTotal w.res := by simp [wWeight, hph]
      have hwn : wWeight ⟨.idle, recordOutcome w.res o⟩ = doneTotal w.res + 1 := by
        simp [wWeight, doneTotal_record]
      rw [hww, hwn] at hs
      simp only [sysTokens]
      omega
  | finish ws i w hw hph =>
      have hs := sum_map_set wWeight ws i w ⟨.done, w.res⟩ hw
      have hww : wWeight w = doneTotal w.res := by simp [wWeight, hph]
      have hwn : wWeight ⟨.done, w.res⟩ = doneTotal w.res := by
        simp [wWeight]
      rw [hww, hwn] at hs
      simp only [sysTokens]
      omega

theorem step_doneZero {s t : SysState} (h : Step s t) (hs : DoneZero s) :
    DoneZero t := by
  cases h with
  | dequeue q ws i w hw hph =>
      intro w' hw' hph'
      rcases List.mem_or_eq_of_mem_set hw' with hmem | rfl
      · have h0 := hs w' hmem hph'
        simp at h0
      · simp at hph'
  | record q ws i w o hw hph =>
      intro w' hw' hph'
      rcases List.mem_or_eq_of_mem_set hw' with hmem | rfl
      · exact hs w' hmem hph'
      · simp at hph'
  | finish ws i w hw hph =>
      intro w' _ _
      rfl

theorem reaches_sysTokens {s t : SysState} (h : Reaches s t) :
    sysTokens t = sysTokens s := by
  induction h with
  | refl => rfl
  | tail _ hstep ih => rw [step_sysTokens hstep, ih]

theorem reaches_doneZero {s t : SysState} (h : Reaches s t)
    (hs : DoneZero s) : DoneZero t := by
  induction h with
  | refl => exact hs
  | tail _ hstep ih => exact step_doneZero hstep ih

theorem reaches_workers_length {s t : SysState} (h : Reaches s t) :
    t.workers.length = s.workers.length := by
  induction h with
  | refl => rfl
  | tail _ hstep ih => rw [step_workers_length hstep, ih]

theorem initState_sysTokens (n C : ℕ) : sysTokens (initState n C) = n := by
  simp [sysTokens, initState, List.map_replicate, wWeight, doneTotal,
    emptyResult]

/-- C1: in fixed-count mode the shared queue initially holds exactly
`requests` Work Tokens, and along every interleaved execution tokens are
conserved (each dequeued token is recorded as exactly one outcome by the
worker that popped it), so in any state where every worker has returned,
the sum over workers of completed plus errored outcomes is exactly
`requests` — no token duplicated, none lost. -/
theorem fixedCount_token_conservation (requests concurrency : ℕ)
    (hC : 0 < concurrency) :
    (initState requests concurrency).queue = requests ∧
    ∀ s : SysState, Reaches (initState requests concurrency) s → AllDone s →
      (s.workers.map fun w => w.res.requests + Multiset.card w.res.errors).sum
        = requests := by
  refine ⟨rfl, fun s hreach hdone => ?_⟩
  have htok : sysTokens s = requests := by
    rw [reaches_sysTokens hreach, initState_sysTokens]
  have hlen : s.workers.length = concurrency := by
    simpa [initState] using reaches_workers_length hreach
  have hne : s.workers ≠ [] := by
    intro hemp
    rw [hemp] at hlen
    simp at hlen
    omega
  obtain ⟨w0, hw0⟩ := List.exists_mem_of_ne_nil s.workers hne
  have hdz : DoneZero (initState requests concurrency) := by
    intro w hw hph
    rw [initState] at hw
    simp only [List.mem_replicate] at hw
    rw [hw.2] at hph
    simp at hph
  have hq0 : s.queue = 0 :=
    reaches_doneZero hreach hdz w0 hw0 (hdone w0 hw0)
  have hmap : s.workers.map wWeight =
      s.workers.map fun w => w.res.requests + Multiset.card w.res.errors := by
    apply List.map_congr_left
    intro w hw
    have := hdone w hw
    simp [wWeight, doneTotal, this]
  rw [sysTokens, hq0, hmap] at htok
  simpa using htok

/-- The worker result after a successful 200 cycle and then a timeout. -/
def traceRes1 : WorkerResult := recordOutcome emptyResult (Outcome.success 200 5)

/-- The worker result after the second (timed-out) cycle of the trace. -/
def traceRes2 : WorkerResult := recordOutcome traceRes1 Outcome.timeout

theorem fixedCount_token_conservation_witness :
    (initState 2 1).queue = 2 ∧
    ((SysState.mk 0 [⟨Phase.done, traceRes2⟩]).workers.map
      (fun w => w.res.requests + Multiset.card w.res.errors)).sum = 2 := by
  have h := fixedCount_token_conservation 2 1 (by decide)
  refine ⟨h.1, h.2 ⟨0, [⟨Phase.done, traceRes2⟩]⟩ ?_ ?_⟩
  · exact Relation.ReflTransGen.head
      (show Step (initState 2 1) ⟨1, [⟨Phase.inflight, emptyResult⟩]⟩ from
        Step.dequeue 1 [⟨Phase.idle, emptyResult⟩] 0 ⟨Phase.idle, emptyResult⟩
          rfl rfl)
      (Relation.ReflTransGen.head
        (show Step ⟨1, [⟨Phase.inflight, emptyResult⟩]⟩
            ⟨1, [⟨Phase.idle, traceRes1⟩]⟩ from
          Step.record 1 [⟨Phase.inflight, emptyResult⟩] 0
            ⟨Phase.inflight, emptyResult⟩ (Outcome.success 200 5) rfl rfl)
        (Relation.ReflTransGen.head
          (show Step ⟨1, [⟨Phase.idle, traceRes1⟩]⟩
              ⟨0, [⟨Phase.inflight, traceRes1⟩]⟩ from
            Step.dequeue 0 [⟨Phase.idle, traceRes1⟩] 0 ⟨Phase.idle, traceRes1⟩
              rfl rfl)
          (Relation.ReflTransGen.head
            (show Step ⟨0, [⟨Phase.inflight, traceRes1⟩]⟩
                ⟨0, [⟨Phase.idle, traceRes2⟩]⟩ from
              Step.record 0 [⟨Phase.inflight, traceRes1⟩] 0
                ⟨Phase.inflight, traceRes1⟩ Outcome.timeout rfl rfl)
            (Relation.ReflTransGen.head
              (show Step ⟨0, [⟨Phase.idle, traceRes2⟩]⟩
                  ⟨0, [⟨Phase.done, traceRes2⟩]⟩ from
                Step.finish [⟨Phase.idle, traceRes2⟩] 0 ⟨Phase.idle, traceRes2⟩
                  rfl rfl)
              Relation.ReflTransGen.refl))))
  · intro w hw
    rw [List.mem_singleton] at hw
    rw [hw]

/-- The aggregation accumulators of `main`'s results loop: concatenated
latencies, merged status-code counter, merged error-kind counter, and
`total_sent` (accumulated as `r.requests + sum(r.errors.values())` per
worker; computed but never displayed). -/
structure Aggregate where
  all_lat : List ℚ
  status_counts : Multiset ℕ
  error_counts : Multiset String
  total_sent : ℕ
deriving DecidableEq

/-- One iteration of `for r in results:` in `main`: extend the latency
list, merge both counters key-wise (`Counter.update` adds counts), and
accumulate `total_sent`. -/
def aggStep (a : Aggregate) (r : WorkerResult) : Aggregate :=
  { all_lat := a.all_lat ++ r.latencies_ms,
    status_counts := a.status_counts + r.statuses,
    error_counts := a.error_counts + r.errors,
    total_sent := a.total_sent + (r.requests + Multiset.card r.errors) }

/-- The empty accumulators before `main`'s results loop. -/
def emptyAgg : Aggregate := ⟨[], 0, 0, 0⟩

/-- `main`'s aggregation of the gathered worker results. -/
def aggregate (results : List WorkerResult) : Aggregate :=
  results.foldl aggStep emptyAgg

/-- `ok = sum(c for s, c in status_counts.items() if 200 <= s < 400)`:
the separately displayed 2xx-3xx statistic. -/
def okRange (a : Aggregate) : ℕ :=
  Multiset.countP (fun s => 200 ≤ s ∧ s < 400) a.status_counts

/-- `total_ok = sum(status_counts.values())`: all completed requests of
any status. -/
def total_ok (a : Aggregate) : ℕ := Multiset.card a.status_counts

/-- `total_err = sum(error_counts.values())`. -/
def total_err (a : Aggregate) : ℕ := Multiset.card a.error_counts

/-- `total_done = total_ok + total_err`. -/
def total_done (a : Aggregate) : ℕ := total_ok a + total_err a

/-- `rps = total_done / elapsed if elapsed > 0 else float("inf")`, the
infinite float modelled as `none`. -/
def rps (a : Aggregate) (elapsed : ℚ) : Option ℚ :=
  if 0 < elapsed then some ((total_done a : ℚ) / elapsed) else none

theorem foldl_agg_status (rs : List WorkerResult) (a : Aggregate) :
    (rs.foldl aggStep a).status_counts =
      a.status_counts + (rs.map (fun r => r.statuses)).sum := by
  induction rs generalizing a with
  | nil => simp
  | cons r rs ih => simp [List.foldl_cons, ih, aggStep, add_assoc]

theorem foldl_agg_error (rs : List WorkerResult) (a : Aggregate) :
    (rs.foldl aggStep a).error_counts =
      a.error_counts + (rs.map (fun r => r.errors)).sum := by
  induction rs generalizing a with
  | nil => simp
  | cons r rs ih => simp [List.foldl_cons, ih, aggStep, add_assoc]

theorem foldl_agg_sent (rs : List WorkerResult) (a : Aggregate) :
    (rs.foldl aggStep a).total_sent =
      a.total_sent + (rs.map (fun r => r.requests + Multiset.card r.errors)).sum := by
  induction rs generalizing a with
  | nil => simp
  | cons r rs ih => simp [List.foldl_cons, ih, aggStep, add_assoc]

theorem aggregate_status (rs : List WorkerResult) :
    (aggregate rs).status_counts = (rs.map (fun r => r.statuses)).sum := by
  simp [aggregate, foldl_agg_status, emptyAgg]

theorem aggregate_error (rs : List WorkerResult) :
    (aggregate rs).error_counts = (rs.map (fun r => r.errors)).sum := by
  simp [aggregate, foldl_agg_error, emptyAgg]

theorem aggregate_sent (rs : List WorkerResult) :
    (aggregate rs).total_sent =
      (rs.map (fun r => r.requests + Multiset.card r.errors)).sum := by
  simp [aggregate, foldl_agg_sent, emptyAgg]

theorem card_sum_multisets {α : Type} (ms : List (Multiset α)) :
    Multiset.card ms.sum = (ms.map (fun m => Multiset.card m)).sum := by
  induction ms with
  | nil => simp
  | cons m ms ih => simp [ih]

theorem length_filterMap_statusKey (os : List Outcome) :
    (os.filterMap statusKey).length = os.countP (fun o => Outcome.isSuccess o) := by
  induction os with
  | nil => simp
  | cons o os ih =>
      cases o <;>
        simp [statusKey, Outcome.isSuccess, List.filterMap_cons,
          List.countP_cons, ih]

theorem length_filterMap_latKey (os : List Outcome) :
    (os.filterMap latKey).length = os.countP (fun o => Outcome.isSuccess o) := by
  induction os with
  | nil => simp
  | cons o os ih =>
      cases o <;>
        simp [latKey, Outcome.isSuccess, List.filterMap_cons,
          List.countP_cons, ih]

theorem runWorker_card_statuses (os : List Outcome) :
    Multiset.card (runWorker os).statuses = (runWorker os).requests := by
  rw [runWorker_statuses, runWorker_requests]
  simp [length_filterMap_statusKey]

theorem total_ok_runWorkers (oss : List (List Outcome)) :
    total_ok (aggregate (oss.map runWorker)) =
      ((oss.map runWorker).map (fun r => r.requests)).sum := by
  rw [total_ok, aggregate_status, card_sum_multisets]
  simp only [List.map_map]
  apply congrArg List.sum
  apply List.map_congr_left
  intro os _
  simp [Function.comp, runWorker_card_statuses]

theorem sum_map_add {α : Type} (l : List α) (f g : α → ℕ) :
    (l.map fun x => f x + g x).sum = (l.map f).sum + (l.map g).sum := by
  induction l with
  | nil => simp
  | cons x l ih =>
      simp only [List.map_cons, List.sum_cons, ih]
      omega

theorem total_err_aggregate (rs : List WorkerResult) :
    total_err (aggregate rs) = (rs.map (fun r => Multiset.card r.errors)).sum := by
  rw [total_err, aggregate_error, card_sum_multisets, List.map_map]
  rfl

/-- The spec's example result A: status counter `{200: 5}`, five
completed requests. -/
def exResA : WorkerResult := ⟨[], Multiset.replicate 5 200, 0, 5⟩

/-- The spec's example result B: status counter `{200: 3, 500: 1}`, four
completed requests. -/
def exResB : WorkerResult := ⟨[], 500 ::ₘ Multiset.replicate 3 200, 0, 4⟩

/-- C8: aggregation is an order-independent, commutative merge — for any
permutation of the collected `WorkerResult`s the merged status-code
counter, error-kind counter, and all derived totals coincide; on the
spec's example, merging `{200: 5}` (completed 5) with `{200: 3, 500: 1}`
(completed 4) gives counts `{200: 8, 500: 1}` and 9 total completed. -/
theorem aggregation_commutative :
    (∀ (rs rs' : List WorkerResult), rs.Perm rs' →
      (aggregate rs).status_counts = (aggregate rs').status_counts ∧
      (aggregate rs).error_counts = (aggregate rs').error_counts ∧
      total_ok (aggregate rs) = total_ok (aggregate rs') ∧
      total_err (aggregate rs) = total_err (aggregate rs') ∧
      total_done (aggregate rs) = total_done (aggregate rs') ∧
      (aggregate rs).total_sent = (aggregate rs').total_sent) ∧
    (Multiset.count 200 (aggregate [exResA, exResB]).status_counts = 8 ∧
     Multiset.count 500 (aggregate [exResA, exResB]).status_counts = 1 ∧
     total_ok (aggregate [exResA, exResB]) = 9) := by
  constructor
  · intro rs rs' hp
    have hst : (aggregate rs).status_counts = (aggregate rs').status_counts := by
      rw [aggregate_status, aggregate_status]
      exact (hp.map _).sum_eq
    have her : (aggregate rs).error_counts = (aggregate rs').error_counts := by
      rw [aggregate_error, aggregate_error]
      exact (hp.map _).sum_eq
    have hsent : (aggregate rs).total_sent = (aggregate rs').total_sent := by
      rw [aggregate_sent, aggregate_sent]
      exact (hp.map _).sum_eq
    exact ⟨hst, her, by simp only [total_ok, hst], by simp only [total_err, her],
      by simp only [total_done, total_ok, total_err, hst, her], hsent⟩
  · refine ⟨?_, ?_, ?_⟩ <;>
      simp [aggregate, aggStep, emptyAgg, exResA, exResB, total_ok,
        Multiset.replicate_succ]

/-- Concrete instance of the commutative merge, obtained from
`aggregation_commutative` at the spec's two example results in both
orders. -/
theorem aggregation_commutative_witness :
    (aggregate [exResA, exResB]).status_counts =
      (aggregate [exResB, exResA]).status_counts ∧
    total_done (aggregate [exResA, exResB]) =
      total_done (aggregate [exResB, exResA]) := by
  have h := aggregation_commutative.1 [exResA, exResB] [exResB, exResA]
    (List.Perm.swap exResB exResA [])
  exact ⟨h.1, h.2.2.2.2.1⟩

/-- C7: the report's `total_done` is the sum over workers of completed
plus errored counts, `rps` is `total_done / elapsed` whenever
`elapsed > 0` and the infinite sentinel whenever `elapsed <= 0`, and
`rps` depends on the status-code breakdown only through `total_done`
(every completed status, 2xx or not, is in the denominator). -/
theorem rps_definition :
    (∀ oss : List (List Outcome),
      total_done (aggregate (oss.map runWorker)) =
        ((oss.map runWorker).map (fun r => r.requests)).sum +
          ((oss.map runWorker).map (fun r => Multiset.card r.errors)).sum) ∧
    (∀ (a : Aggregate) (elapsed : ℚ), 0 < elapsed →
      rps a elapsed = some ((total_done a : ℚ) / elapsed)) ∧
    (∀ (a : Aggregate) (elapsed : ℚ), elapsed ≤ 0 → rps a elapsed = none) ∧
    (∀ (a b : Aggregate) (elapsed : ℚ), total_done a = total_done b →
      rps a elapsed = rps b elapsed) := by
  refine ⟨fun oss => ?_, fun a e he => ?_, fun a e he => ?_, fun a b e h => ?_⟩
  · rw [total_done, total_ok_runWorkers, total_err_aggregate]
  · simp [rps, he]
  · simp [rps, not_lt.mpr he]
  · simp [rps, h]

/-- Concrete instance of the rps definition from `rps_definition`: with a
positive elapsed time the rate is `total_done / elapsed`. -/
theorem rps_definition_witness :
    (0 : ℚ) < 2 ∧ rps emptyAgg 2 = some ((total_done emptyAgg : ℚ) / 2) :=
  ⟨by norm_num, rps_definition.2.1 emptyAgg 2 (by norm_num)⟩

/-- C10: every worker-produced result has status-counter total equal to
its `requests` field, hence the aggregator's `total_ok` (sum of merged
status counts, counting every status code) equals the summed per-worker
completed counts, and `total_done` coincides with the separately
accumulated, never-displayed `total_sent`. -/
theorem aggregate_totals_refinement :
    ∀ oss : List (List Outcome),
      (∀ r ∈ oss.map runWorker, Multiset.card r.statuses = r.requests) ∧
      total_ok (aggregate (oss.map runWorker)) =
        ((oss.map runWorker).map (fun r => r.requests)).sum ∧
      total_done (aggregate (oss.map runWorker)) =
        (aggregate (oss.map runWorker)).total_sent := by
  intro oss
  refine ⟨fun r hr => ?_, total_ok_runWorkers oss, ?_⟩
  · obtain ⟨os, _, rfl⟩ := List.mem_map.mp hr
    exact runWorker_card_statuses os
  · rw [total_done, total_ok_runWorkers, total_err_aggregate, aggregate_sent,
      sum_map_add]

/-- Concrete instance of `aggregate_totals_refinement` on one successful
and one timed-out worker run. -/
theorem aggregate_totals_refinement_witness :
    total_done (aggregate ([[Outcome.success 200 1],
        [Outcome.timeout]].map runWorker)) =
      (aggregate ([[Outcome.success 200 1],
        [Outcome.timeout]].map runWorker)).total_sent :=
  (aggregate_totals_refinement [[Outcome.success 200 1],
    [Outcome.timeout]]).2.2

/-- C6: every worker-produced result satisfies
`completed == len(latencies)` — after every loop iteration, i.e. for
every sequence of cycle outcomes — and one classification step
increments exactly one of the two bucket families: the combined bucket
mass grows by exactly one, while at least one of the two counters is
left untouched (never both, never neither). -/
theorem worker_result_invariant :
    (∀ os : List Outcome,
      (runWorker os).requests = (runWorker os).latencies_ms.length) ∧
    (∀ (r : WorkerResult) (o : Outcome),
      (Multiset.card (recordOutcome r o).statuses +
          Multiset.card (recordOutcome r o).errors =
        Multiset.card r.statuses + Multiset.card r.errors + 1) ∧
      ((recordOutcome r o).statuses = r.statuses ∨
        (recordOutcome r o).errors = r.errors)) := by
  constructor
  · intro os
    rw [runWorker_requests, runWorker_latencies, length_filterMap_latKey]
  · intro r o
    cases o with
    | success s lat => exact ⟨by simp [recordOutcome]; omega, Or.inr rfl⟩
    | timeout => exact ⟨by simp [recordOutcome]; omega, Or.inl rfl⟩
    | clientError n => exact ⟨by simp [recordOutcome]; omega, Or.inl rfl⟩
    | otherError n => exact ⟨by simp [recordOutcome]; omega, Or.inl rfl⟩

/-- Concrete instance of the worker invariant from
`worker_result_invariant` on a success followed by a timeout. -/
theorem worker_result_invariant_witness :
    (runWorker [Outcome.success 200 3, Outcome.timeout]).requests =
      (runWorker [Outcome.success 200 3, Outcome.timeout]).latencies_ms.length :=
  worker_result_invariant.1 [Outcome.success 200 3, Outcome.timeout]

/-- C9: per-request failures are non-fatal and never retried: the worker
loop keeps folding after any outcome (no exception escapes a request
cycle), a whole run's error counter holds exactly one entry per error
outcome — a timeout under key `"timeout"`, any other failure under its
failure-category key — and recording an error leaves the status counter,
latency list and completed count untouched. -/
theorem per_request_errors_nonfatal :
    (∀ (pre post : List Outcome) (o : Outcome),
      runWorker (pre ++ o :: post) =
        post.foldl recordOutcome (recordOutcome (runWorker pre) o)) ∧
    (∀ os : List Outcome,
      (runWorker os).errors = (↑(os.filterMap errorKey) : Multiset String)) ∧
    (∀ r : WorkerResult,
      (recordOutcome r Outcome.timeout).errors = "timeout" ::ₘ r.errors ∧
      (recordOutcome r Outcome.timeout).statuses = r.statuses ∧
      (recordOutcome r Outcome.timeout).latencies_ms = r.latencies_ms ∧
      (recordOutcome r Outcome.timeout).requests = r.requests) ∧
    (∀ (r : WorkerResult) (n : String),
      (recordOutcome r (Outcome.clientError n)).errors = n ::ₘ r.errors ∧
      (recordOutcome r (Outcome.otherError n)).errors = n ::ₘ r.errors) := by
  refine ⟨fun pre post o => ?_, runWorker_errors, fun r => ?_, fun r n => ?_⟩
  · simp [runWorker, List.foldl_append]
  · exact ⟨rfl, rfl, rfl, rfl⟩
  · exact ⟨rfl, rfl⟩

/-- Concrete instance from `per_request_errors_nonfatal`: a timeout is
recorded under the error key `"timeout"`. -/
theorem per_request_errors_nonfatal_witness :
    (recordOutcome emptyResult Outcome.timeout).errors =
      "timeout" ::ₘ emptyResult.errors :=
  (per_request_errors_nonfatal.2.2.1 emptyResult).1

/-- Python `str.upper()` (over the ASCII method names this tool deals
with): uppercase every character. -/
def pyUpper (s : String) : String := String.mk (s.data.map Char.toUpper)

/-- Python `str.strip()`: drop leading and trailing whitespace. -/
def pyStrip (s : String) : String :=
  String.mk
    (((s.data.dropWhile Char.isWhitespace).reverse.dropWhile
        Char.isWhitespace).reverse)

/-- Python `h.split(":", 1)` projected to its two parts: the text before
the first colon, and everything after it (empty when no colon exists,
but `parseHeader` only calls this once a colon is known present). -/
def splitFirstColon (s : String) : String × String :=
  (String.mk (s.data.takeWhile (fun c => c != ':')),
   String.mk ((s.data.dropWhile (fun c => c != ':')).drop 1))

/-- Python `":" in h`. -/
def containsColon (s : String) : Bool := s.data.contains ':'

/-- The two fatal `SystemExit` raise sites of `main`'s validation: the
dispatch-mode check and the malformed-header check. -/
inductive ConfigError where
  | dispatchMode
  | badHeader (header : String)
deriving DecidableEq, Repr

/-- The message each fatal configuration error is raised with (the header
message elides Python's repr-quoting of the offending string). -/
def ConfigError.message : ConfigError → String
  | .dispatchMode =>
      "Provide exactly one of --duration (seconds) OR --requests (total)."
  | .badHeader h => "Bad header format: " ++ h ++ ". Use Key: Value"

/-- One header string: `raise SystemExit` when it has no colon, else
split at the first colon and strip both parts. -/
def parseHeader (h : String) : Except ConfigError (String × String) :=
  if containsColon h then
    .ok (pyStrip (splitFirstColon h).1, pyStrip (splitFirstColon h).2)
  else .error (.badHeader h)

/-- Python dict assignment `d[k] = v` on an insertion-ordered dict:
replace in place when the key exists, append otherwise. -/
def dictSet : List (String × String) → String → String → List (String × String)
  | [], k, v => [(k, v)]
  | (k0, v0) :: rest, k, v =>
      if k0 = k then (k0, v) :: rest else (k0, v0) :: dictSet rest k v

/-- Python `d.setdefault(k, v)`: insert only when the key is absent. -/
def dictSetdefault (d : List (String × String)) (k v : String) :
    List (String × String) :=
  if d.any (fun kv => kv.1 == k) then d else d ++ [(k, v)]

/-- The header-parsing loop of `main`, with the dict built so far:
each `--header` string in order, aborting on the first one with no
colon. -/
def parseHeadersAux (d : List (String × String)) :
    List String → Except ConfigError (List (String × String))
  | [] => .ok d
  | h :: rest =>
      match parseHeader h with
      | .error e => .error e
      | .ok kv => parseHeadersAux (dictSet d kv.1 kv.2) rest

/-- The header-parsing loop of `main`, from the empty dict. -/
def parseHeaders (hs : List String) :
    Except ConfigError (List (String × String)) :=
  parseHeadersAux [] hs

/-- The parsed command line of `main` (argparse defaults:
method GET, concurrency 50, duration 0.0, requests 0, timeout 10.0). -/
structure Args where
  url : String
  method : String
  concurrency : ℤ
  duration : ℚ
  requests : ℤ
  timeout : ℚ
  header : List String
  json : Option String
  data : Option String
  no_keepalive : Bool
deriving DecidableEq, Repr

/-- Which dispatch discipline `main` enters after validation. -/
inductive DispatchMode where
  | duration (seconds : ℚ)
  | fixedCount (total : ℤ)
deriving DecidableEq, Repr

/-- Everything `main` has established by line 162, just before it builds
the connector and session (the first network objects): normalized
method, parsed header dict, selected body (the JSON body is modelled by
its source string; an external library does the actual JSON decoding),
and dispatch mode. -/
structure Config where
  url : String
  method : String
  concurrency : ℤ
  mode : DispatchMode
  timeout : ℚ
  headers : List (String × String)
  json_body : Option String
  data_bytes : Option String
  no_keepalive : Bool
deriving DecidableEq, Repr

/-- The validation/setup prefix of `main` (source lines 144-162), in
source order: (1) `SystemExit` unless exactly one of duration/requests
is positive — `(args.duration <= 0) == (args.requests <= 0)` aborts;
(2) method upper-cased; (3) headers parsed, aborting on a colon-free
string; (4) body selection — `if args.json is not None` takes the JSON
body and defaults Content-Type, `elif args.data is not None` takes the
raw body; both present means JSON wins and the raw body is ignored.
Everything here runs strictly before any connector, session, worker or
request exists. -/
def buildConfig (args : Args) : Except ConfigError Config :=
  if (decide (args.duration ≤ 0)) = (decide (args.requests ≤ 0)) then
    .error .dispatchMode
  else
    (parseHeaders args.header).map (fun headers =>
      match args.json with
      | some j =>
          { url := args.url, method := pyUpper args.method,
            concurrency := args.concurrency,
            mode := if 0 < args.duration then .duration args.duration
                    else .fixedCount args.requests,
            timeout := args.timeout,
            headers := dictSetdefault headers "Content-Type" "application/json",
            json_body := some j, data_bytes := none,
            no_keepalive := args.no_keepalive }
      | none =>
          match args.data with
          | some d =>
              { url := args.url, method := pyUpper args.method,
                concurrency := args.concurrency,
                mode := if 0 < args.duration then .duration args.duration
                        else .fixedCount args.requests,
                timeout := args.timeout, headers := headers,
                json_body := none, data_bytes := some d,
                no_keepalive := args.no_keepalive }
          | none =>
              { url := args.url, method := pyUpper args.method,
                concurrency := args.concurrency,
                mode := if 0 < args.duration then .duration args.duration
                        else .fixedCount args.requests,
                timeout := args.timeout, headers := headers,
                json_body := none, data_bytes := none,
                no_keepalive := args.no_keepalive })

theorem parseHeadersAux_ok_iff (hs : List String)
    (d : List (String × String)) :
    (∃ m, parseHeadersAux d hs = .ok m) ↔
      ∀ h ∈ hs, containsColon h = true := by
  induction hs generalizing d with
  | nil => simp [parseHeadersAux]
  | cons h hs ih =>
      by_cases hc : containsColon h = true
      · simp [parseHeadersAux, parseHeader, hc, ih]
      · simp [parseHeadersAux, parseHeader, hc]

theorem parseHeadersAux_error_badHeader (hs : List String)
    (d : List (String × String)) (e : ConfigError)
    (h : parseHeadersAux d hs = .error e) : ∃ s, e = .badHeader s := by
  induction hs generalizing d with
  | nil => simp [parseHeadersAux] at h
  | cons hd hs ih =>
      by_cases hc : containsColon hd = true
      · rw [parseHeadersAux] at h
        simp only [parseHeader, hc, if_true] at h
        exact ih _ h
      · rw [parseHeadersAux] at h
        simp only [parseHeader, hc, if_false] at h
        simp at h
        exact ⟨hd, h.symm⟩

theorem parseHeaders_error_badHeader (hs : List String) (e : ConfigError)
    (h : parseHeaders hs = .error e) : ∃ s, e = .badHeader s :=
  parseHeadersAux_error_badHeader hs [] e h

/-- C5: parsing the header list succeeds exactly when every supplied
header string contains a colon; `"Authorization: Bearer X"` becomes the
mapping entry `("Authorization", "Bearer X")` (split at the first colon,
both sides stripped), and a colon-free string such as `"BadHeader"` is a
fatal configuration error. -/
theorem header_parsing :
    (∀ hs : List String,
      (∃ m, parseHeaders hs = .ok m) ↔ ∀ h ∈ hs, containsColon h = true) ∧
    parseHeaders ["Authorization: Bearer X"] =
      .ok [("Authorization", "Bearer X")] ∧
    parseHeaders ["BadHeader"] = .error (.badHeader "BadHeader") := by
  refine ⟨fun hs => parseHeadersAux_ok_iff hs [], ?_, ?_⟩
  · rfl
  · rfl

/-- Concrete instance of the parsing iff from `header_parsing`: the
well-formed example header admits a successful parse. -/
theorem header_parsing_witness :
    (∃ m, parseHeaders ["Authorization: Bearer X"] = .ok m) ↔
      ∀ h ∈ ["Authorization: Bearer X"], containsColon h = true :=
  header_parsing.1 ["Authorization: Bearer X"]

theorem cond_iff_not_xor (d : ℚ) (r : ℤ) :
    ((decide (d ≤ 0)) = (decide (r ≤ 0))) ↔ ¬ Xor' (0 < d) (0 < r) := by
  rw [decide_eq_decide]
  simp only [← not_lt]
  unfold Xor'
  tauto

/-- C4 amended: the run aborts with the dispatch-mode configuration
error — raised by the very first validation step, before header parsing,
body handling, worker spawning or any network object — precisely when
not exactly one of {duration > 0, requests > 0} holds.  Fatal
termination in general is strictly weaker: a malformed header also
aborts the run with exactly one dispatch mode set. -/
theorem dispatch_mode_validation :
    ∀ args : Args,
      buildConfig args = .error .dispatchMode ↔
        ¬ Xor' (0 < args.duration) (0 < args.requests) := by
  intro args
  rw [← cond_iff_not_xor args.duration args.requests]
  unfold buildConfig
  by_cases hcond : (decide (args.duration ≤ 0)) = (decide (args.requests ≤ 0))
  · simp [hcond]
  · rw [if_neg hcond]
    constructor
    · intro h
      exfalso
      cases heq : parseHeaders args.header with
      | ok v => rw [heq] at h; simp [Except.map] at h
      | error e =>
          rw [heq] at h
          simp only [Except.map] at h
          obtain ⟨sbad, rfl⟩ := parseHeaders_error_badHeader _ e heq
          simp at h
    · intro h
      exact absurd h hcond

/-- A configuration with requests-only dispatch (valid) but a malformed
header string. -/
def badHeaderArgs : Args :=
  { url := "http://127.0.0.1:8000/api/ping", method := "GET",
    concurrency := 50, duration := 0, requests := 100, timeout := 10,
    header := ["BadHeader"], json := none, data := none,
    no_keepalive := false }

/-- C4 counterexample: this configuration satisfies exactly one of
{duration > 0, requests > 0}, yet the program still terminates fatally
before any network activity (the malformed header aborts it) — so fatal
termination does not imply a dispatch-mode violation, refuting the
claimed equivalence. -/
theorem fatal_exit_without_dispatch_violation :
    Xor' ((0 : ℚ) < badHeaderArgs.duration)
      ((0 : ℤ) < badHeaderArgs.requests) ∧
    buildConfig badHeaderArgs = .error (.badHeader "BadHeader") := by
  constructor
  · unfold Xor' badHeaderArgs
    norm_num
  · rfl

/-- A dispatch-mode violation: neither duration nor requests positive. -/
def neitherModeArgs : Args :=
  { url := "http://127.0.0.1:8000/api/ping", method := "GET",
    concurrency := 50, duration := 0, requests := 0, timeout := 10,
    header := [], json := none, data := none, no_keepalive := false }

/-- Concrete instance of `dispatch_mode_validation`: with neither mode
positive the run aborts with the dispatch-mode error. -/
theorem dispatch_mode_validation_witness :
    buildConfig neitherModeArgs = .error .dispatchMode :=
  (dispatch_mode_validation neitherModeArgs).mpr
    (by unfold Xor' neitherModeArgs; norm_num)

/-- A configuration supplying both a JSON body and a raw body, with a
valid fixed-count dispatch mode. -/
def bothBodiesArgs : Args :=
  { url := "http://127.0.0.1:8000/api/ping", method := "get",
    concurrency := 50, duration := 0, requests := 100, timeout := 10,
    header := [], json := some "1", data := some "raw",
    no_keepalive := false }

/-- What `buildConfig` actually produces for `bothBodiesArgs`: the JSON
body is taken, Content-Type defaulted, the raw body dropped. -/
def bothBodiesConfig : Config :=
  { url := "http://127.0.0.1:8000/api/ping", method := "GET",
    concurrency := 50, mode := .fixedCount 100, timeout := 10,
    headers := [("Content-Type", "application/json")],
    json_body := some "1", data_bytes := none, no_keepalive := false }

/-- C3 counterexample: with both `--json` and `--data` supplied the
Coordinator raises no configuration error at all — validation succeeds
(the `elif` in `main` silently prefers the JSON body), refuting the
claimed mutual-exclusivity failure. -/
theorem both_bodies_not_rejected :
    bothBodiesArgs.json.isSome = true ∧ bothBodiesArgs.data.isSome = true ∧
    buildConfig bothBodiesArgs = .ok bothBodiesConfig :=
  ⟨rfl, rfl, by rfl⟩

/-- C3 amended: supplying both a JSON body and a raw body is not a
configuration error; whenever `--json` is present, every configuration
the Coordinator builds carries the JSON body and silently ignores the
raw body (`data` is never encoded). -/
theorem json_body_precedence :
    ∀ (args : Args) (j : String), args.json = some j →
      ∀ cfg : Config, buildConfig args = .ok cfg →
        cfg.json_body = some j ∧ cfg.data_bytes = none := by
  intro args j hj cfg hok
  unfold buildConfig at hok
  by_cases hcond : (decide (args.duration ≤ 0)) = (decide (args.requests ≤ 0))
  · rw [if_pos hcond] at hok
    exact absurd hok (by simp)
  · rw [if_neg hcond] at hok
    cases heq : parseHeaders args.header with
    | error e => rw [heq] at hok; simp [Except.map] at hok
    | ok hsv =>
        rw [heq] at hok
        rw [hj] at hok
        simp only [Except.map, Except.ok.injEq] at hok
        rw [← hok]
        exact ⟨rfl, rfl⟩

/-- Concrete instance of `json_body_precedence` at `bothBodiesArgs`. -/
theorem json_body_precedence_witness :
    bothBodiesConfig.json_body = some "1" ∧
    bothBodiesConfig.data_bytes = none :=
  json_body_precedence bothBodiesArgs "1" rfl bothBodiesConfig (by rfl)

end LoadTest
